import Mathlib

/-!
Verification of the notifiers core (src/notifiers/core.py): the schema-driven
data-processing pipeline (`SchemaResource._process_data`), the `Response` value
type, the `Provider.notify` contract and the provider registry.

Python dicts are embedded as insertion-ordered association lists with unique
keys maintained by the operations; values are a small JSON-like value type.
Helpers from `notifiers.utils.helpers` and the `notifiers.exceptions` classes
are repo code absent from src/ and are modelled from the spec where noted.
-/

namespace Notifiers

/-- JSON-like runtime values appearing in notification data mappings. -/
inductive Val where
  | vstr (s : String)
  | vint (n : Int)
  | vbool (b : Bool)
  | vnull
deriving DecidableEq, Repr

/-- Python truthiness of a value (used by `if not prefix` style checks). -/
def Val.truthy : Val → Bool
  | .vstr s => !s.isEmpty
  | .vint n => n != 0
  | .vbool b => b
  | .vnull => false

/-- A Python dict from argument names to values: insertion-ordered association
list; the operations below keep keys unique. -/
abbrev Dict := List (String × Val)

/-- Modelled from the spec: `notifiers.utils.helpers.merge_dicts` (the helpers
module is absent from src/). Per the spec, entries of the second dict are
merged into the first only for keys not already present, so existing entries
always win. -/
def merge_dicts (target : Dict) (mergeFrom : Dict) : Dict :=
  mergeFrom.foldl
    (fun acc kv => if (acc.lookup kv.1).isSome then acc else acc ++ [kv]) target

/-- Python `d.pop(k, None)`: the removed value (if any) and the remaining dict. -/
def dictPop (d : Dict) (k : String) : Option Val × Dict :=
  (d.lookup k, d.filter (fun kv => kv.1 != k))

/-- Character-wise ASCII uppercasing (the behaviour of Python `str.upper` on
the ASCII provider and argument names used in environ keys). -/
def strUpper (s : String) : String :=
  ⟨s.data.map Char.toUpper⟩

/-- Environment variable key: PREFIX + PROVIDER_NAME + ARGUMENT, uppercased.
Modelled from the spec: `notifiers.utils.helpers.dict_from_environs` builds the
keys this way (helpers module absent from src/). -/
def envKey (pfx name arg : String) : String :=
  strUpper (pfx ++ name ++ "_" ++ arg)

/-- Modelled from the spec: `notifiers.utils.helpers.dict_from_environs`
(helpers module absent from src/): for each schema argument, look up the
environment variable named by `envKey` and collect the values found. The
process environment is passed in as a lookup function. -/
def dict_from_environs (environ : String → Option String)
    (pfx name : String) (args : List String) : Dict :=
  args.filterMap fun a => (environ (envKey pfx name a)).map (fun v => (a, Val.vstr v))

/-- Default environ prefix constant from core.py. -/
def DEFAULT_ENVIRON_PREFIX : String := "NOTIFIERS_"

/-- Status constants from core.py. -/
def FAILURE_STATUS : String := "Failure"

def SUCCESS_STATUS : String := "Success"

/-- The structural type keywords of the schema language that the providers of
this repository use in their property rules (JSON Schema draft 4 types). -/
inductive JType where
  | jstring
  | jinteger
  | jboolean
deriving DecidableEq, Repr

/-- Does a runtime value satisfy a declared structural type? -/
def typeOk : JType → Val → Bool
  | .jstring, .vstr _ => true
  | .jinteger, .vint _ => true
  | .jboolean, .vbool _ => true
  | _, _ => false

/-- A property subschema (a `properties` entry): structural rule plus an
optional custom override message stored under the key `error_type`. -/
structure PropRule where
  type? : Option JType := none
  error_type : Option String := none
deriving DecidableEq, Repr

/-- Values that can appear in the schema dict itself (the schema is a Python
dict whose entries are the schema keywords). -/
inductive SVal where
  | sprops (ps : List (String × PropRule))
  | sreq (names : List String)
  | sstr (s : String)
deriving DecidableEq, Repr

/-- A schema object: a Python dict mapping schema keywords (`properties`,
`required`, custom-message keys, ...) to schema values. -/
abbrev SDict := List (String × SVal)

/-- Python `dict.update`: entries of the second dict overwrite entries of the
first on key collision, new keys are appended in order. -/
def dictUpdate (d u : SDict) : SDict :=
  (d.map fun kv =>
    match u.lookup kv.1 with
    | some v => (kv.1, v)
    | none => kv) ++ u.filter (fun kv => (d.lookup kv.1).isNone)

/-- The `properties` part of a schema dict (empty when absent or ill-shaped;
the schema self-check rules both cases out before this is read). -/
def schemaProperties (s : SDict) : List (String × PropRule) :=
  match s.lookup "properties" with
  | some (.sprops ps) => ps
  | _ => []

/-- The `required` part of a schema dict (empty when absent or ill-shaped). -/
def schemaRequired (s : SDict) : List String :=
  match s.lookup "required" with
  | some (.sreq names) => names
  | _ => []

/-- Modelled from the spec: the meta-validation performed by the external
validator collaborator (`validator.check_schema` in `_validate_schema`). The
declared schema must be a syntactically valid object-shaped structural
contract: its `properties` entry must be present and be a mapping of argument
names to rules, a `required` entry must be a non-empty list of names, and
custom-message entries must be strings. Returns the error message on failure. -/
def check_schema (s : SDict) : Option String :=
  match s.lookup "properties" with
  | none => some "properties is a required schema keyword"
  | some (.sprops _) =>
    match s.lookup "required" with
    | some (.sreq []) => some "required must be a non-empty array"
    | some (.sreq _) | none =>
      match s.lookup "error_required" with
      | some (.sprops _) | some (.sreq _) => some "error_required must be a string"
      | _ => none
    | some _ => some "required must be an array of strings"
  | some _ => some "properties must be an object"

/-- A single structural violation found when validating data against a schema:
either a missing required property or a type mismatch on a property. -/
inductive Violation where
  | vrequired (prop : String)
  | vtype (prop : String) (expected : JType) (actual : Val)
deriving DecidableEq, Repr

/-- Modelled from the spec: the violations the external validator iterates for
a flat object schema (`validator.iter_errors`): missing required properties in
declaration order, then type mismatches in property-declaration order. -/
def iterErrors (s : SDict) (d : Dict) : List Violation :=
  ((schemaRequired s).filterMap fun p =>
    if (d.lookup p).isSome then none else some (.vrequired p))
  ++ ((schemaProperties s).filterMap fun pr =>
    match d.lookup pr.1, pr.2.type? with
    | some v, some t => if typeOk t v then none else some (.vtype pr.1 t v)
    | _, _ => none)

/-- Modelled from the spec: `jsonschema.exceptions.best_match` picks the most
relevant violation; for the flat schemas of this core every violation is
equally deep, so the first violation in iteration order is selected (the spec
itself leaves the tie-break among equally specific violations open). -/
def best_match (vs : List Violation) : Option Violation :=
  vs.head?

/-- The rule kind (`e.validator` in the source) of a violation. -/
def Violation.kind : Violation → String
  | .vrequired _ => "required"
  | .vtype _ _ _ => "type"

/-- Display form of a value inside a generic validator message. -/
def Val.msgForm : Val → String
  | .vstr s => s
  | .vint n => toString n
  | .vbool b => toString b
  | .vnull => "None"

/-- Display form of a structural type inside a generic validator message. -/
def JType.msgForm : JType → String
  | .jstring => "string"
  | .jinteger => "integer"
  | .jboolean => "boolean"

/-- Modelled from the spec: the generic human-readable message (`e.message`)
the external validator attaches to a violation. -/
def genericMsg : Violation → String
  | .vrequired p => p ++ " is a required property"
  | .vtype p t v => p ++ ": " ++ v.msgForm ++ " is not of type " ++ t.msgForm

/-- The subschema a violation is attached to (`e.schema`) holds the custom
override message for the violated rule kind under the key `error_{kind}`:
for a `required` violation that subschema is the top-level object schema, for
a `type` violation it is the property rule itself. -/
def customMsg (s : SDict) : Violation → Option String
  | .vrequired _ =>
    match s.lookup "error_required" with
    | some (.sstr m) => some m
    | _ => none
  | .vtype p _ _ =>
    match (schemaProperties s).lookup p with
    | some rule => rule.error_type
    | none => none

/-- The message carried by `BadArguments`, from core.py lines 173-174: the
custom override when the violated rule subschema defines a truthy (non-empty)
one, else the generic message. -/
def badArgumentsMsg (s : SDict) (v : Violation) : String :=
  match customMsg s v with
  | some m => if m.isEmpty then genericMsg v else m
  | none => genericMsg v

/-- Opaque transport-level response object (stands for `requests.Response`). -/
structure RawResponse where
  tag : Nat
deriving DecidableEq, Repr

/-- Modelled from the spec: `notifiers.exceptions.SchemaError` (exceptions
module absent from src/), constructed in core.py with the meta-validation
message, the provider name and the offending schema. -/
structure SchemaErrorE where
  schema_error : String
  provider : String
  data : SDict
deriving DecidableEq, Repr

/-- Modelled from the spec: `notifiers.exceptions.BadArguments` (exceptions
module absent from src/), constructed in core.py with the selected violation
message, the provider name and the validated data. -/
structure BadArgumentsE where
  validation_error : String
  provider : String
  data : Dict
deriving DecidableEq, Repr

/-- Modelled from the spec: `notifiers.exceptions.NotificationError`
(exceptions module absent from src/), constructed by `raise_on_errors` with
the provider name, the data used, the captured errors and the raw response. -/
structure NotificationErrorE where
  provider : String
  data : Option Dict
  errors : Option (List String)
  response : Option RawResponse
deriving DecidableEq, Repr

/-- The local contract violations the processing pipeline can raise: a schema
self-check defect, a structural validation failure, or the semantic
dependency-check exception (a generic notifier exception with a message). -/
inductive PipelineError where
  | schemaErr (e : SchemaErrorE)
  | badArgs (e : BadArgumentsE)
  | depsErr (msg : String)
deriving DecidableEq, Repr

/-- The `Response` wrapper from core.py: status, provider name, the data used,
the raw transport response if any, and an optional list of error strings. -/
structure Response where
  status : String
  provider : String
  data : Option Dict
  response : Option RawResponse := none
  errors : Option (List String) := none
deriving DecidableEq, Repr

/-- Python truthiness of the `errors` attribute (`if self.errors`): truthy
exactly when it is a non-empty list. -/
def errorsTruthy : Option (List String) → Bool
  | none => false
  | some l => !l.isEmpty

/-- `Response.raise_on_errors` from core.py: raises a `NotificationError`
carrying the provider, data, errors and raw response when `errors` is truthy.
The method only reads attributes, so its embedding is a pure function on the
response. -/
def Response.raise_on_errors (r : Response) : Option NotificationErrorE :=
  if errorsTruthy r.errors then
    some ⟨r.provider, r.data, r.errors, r.response⟩
  else none

/-- State-passing form of `raise_on_errors`, making explicit that the method
leaves every field of the response unchanged (no attribute is assigned in the
source). -/
def Response.raise_on_errors_st (r : Response) : Option NotificationErrorE × Response :=
  (r.raise_on_errors, r)

/-- A `SchemaResource` from core.py: the declared schema fragment and required
part, the provider name, and the three overridable hooks (`defaults`,
`_prepare_data`, `_validate_data_dependencies`) with their base-class default
behaviours. -/
structure Resource where
  name : String
  schemaBase : SDict
  requiredPart : SDict
  defaults : Dict := []
  prepare_data : Dict → Dict := id
  validate_data_dependencies : Dict → Except String Dict := Except.ok

/-- The merged schema value computed by the `schema` property on a cache miss:
`self._schema.copy()` followed by `update(self._required)`, so entries of the
required part override the schema fragment on key collision. -/
def Resource.mergedSchema (r : Resource) : SDict :=
  dictUpdate r.schemaBase r.requiredPart

/-- The `schema` property with its per-instance memoization made explicit: the
cache is the `_merged_schema` attribute (initially `None`). The guard is
`if not self._merged_schema`, so a `None` or empty cached dict triggers a
(re)computation and assignment; otherwise the cached value is returned. -/
def Resource.schemaGet (r : Resource) (cache : Option SDict) : SDict × Option SDict :=
  match cache with
  | some s => if s.isEmpty then (r.mergedSchema, some r.mergedSchema) else (s, some s)
  | none => (r.mergedSchema, some r.mergedSchema)

/-- Repeated accesses of the `schema` property starting from a fresh instance
(`_merged_schema = None`): the value of the n-th access (1-indexed). -/
def Resource.schemaAccess (r : Resource) : Nat → SDict × Option SDict
  | 0 => r.schemaGet none
  | n + 1 => r.schemaGet (r.schemaAccess n).2

/-- The `arguments` property: the `properties` of the merged schema. -/
def Resource.arguments (r : Resource) : List (String × PropRule) :=
  schemaProperties r.mergedSchema

/-- The effective environ prefix of `_get_environs`: the default constant when
the supplied prefix is absent or falsy (`if not prefix`). -/
def effPrefix : Option String → String
  | none => DEFAULT_ENVIRON_PREFIX
  | some s => if s.isEmpty then DEFAULT_ENVIRON_PREFIX else s

/-- `_get_environs` from core.py: fetch the environment values for every
argument declared in the schema, under the effective prefix. -/
def Resource.get_environs (r : Resource) (environ : String → Option String)
    (pfx : Option String) : Dict :=
  dict_from_environs environ (effPrefix pfx) r.name (r.arguments.map Prod.fst)

/-- `_merge_defaults` from core.py: merge the declared defaults into the data,
never overriding a present key. -/
def Resource.merge_defaults (r : Resource) (data : Dict) : Dict :=
  merge_dicts data r.defaults

/-- `_validate_schema` from core.py: run the meta-validation of the declared
schema and wrap a failure in a `SchemaError` carrying the message, the
provider name and the schema. -/
def Resource.validate_schema (r : Resource) : Option SchemaErrorE :=
  match check_schema r.mergedSchema with
  | some m => some ⟨m, r.name, r.mergedSchema⟩
  | none => none

/-- `_validate_data` from core.py: take the best-matching violation of the
data against the schema and wrap it in a `BadArguments` carrying the message
(custom override preferred), the provider name and the data. -/
def Resource.validate_data (r : Resource) (data : Dict) : Option BadArgumentsE :=
  match best_match (iterErrors r.mergedSchema data) with
  | some v => some ⟨badArgumentsMsg r.mergedSchema v, r.name, data⟩
  | none => none

/-- The value popped for the reserved `env_prefix` key is handed to
`_get_environs` as the prefix; a string value is used as such, an absent or
falsy value falls back to the default prefix inside `_get_environs`. (A truthy
non-string value would be a `TypeError` inside the string concatenation of the
helpers module and is outside the model.) -/
def Val.asPrefix : Val → Option String
  | .vstr s => some s
  | _ => none

/-- `_process_data` from core.py: schema self-check, `env_prefix` pop and
environment overlay, structural validation of the merged data, provider
shaping, default merge, and the semantic dependency check, in that order. -/
def Resource.process_data (r : Resource) (environ : String → Option String)
    (data : Dict) : Except PipelineError Dict :=
  match r.validate_schema with
  | some e => .error (.schemaErr e)
  | none =>
    let popped := dictPop data "env_prefix"
    let environs := r.get_environs environ (popped.1.bind Val.asPrefix)
    let data1 := if environs.isEmpty then popped.2 else merge_dicts popped.2 environs
    match r.validate_data data1 with
    | some e => .error (.badArgs e)
    | none =>
      let data2 := r.prepare_data data1
      let data3 := r.merge_defaults data2
      match r.validate_data_dependencies data3 with
      | .ok d => .ok d
      | .error m => .error (.depsErr m)

/-- The pipeline stages of `_process_data`, used to record execution order.
The environment-overlay stage records the effective prefix it used. -/
inductive Stage where
  | schemaCheck
  | envOverlay (pfx : String)
  | validateData
  | shapeData
  | mergeDefaults
  | depsCheck
deriving DecidableEq, Repr

/-- `_process_data` instrumented with the list of stages it executes, in
execution order. Identical to `Resource.process_data` except for the trace. -/
def Resource.process_data_traced (r : Resource) (environ : String → Option String)
    (data : Dict) : Except PipelineError Dict × List Stage :=
  match r.validate_schema with
  | some e => (.error (.schemaErr e), [.schemaCheck])
  | none =>
    let popped := dictPop data "env_prefix"
    let p := effPrefix (popped.1.bind Val.asPrefix)
    let environs := r.get_environs environ (popped.1.bind Val.asPrefix)
    let data1 := if environs.isEmpty then popped.2 else merge_dicts popped.2 environs
    match r.validate_data data1 with
    | some e => (.error (.badArgs e), [.schemaCheck, .envOverlay p, .validateData])
    | none =>
      let data2 := r.prepare_data data1
      let data3 := r.merge_defaults data2
      match r.validate_data_dependencies data3 with
      | .ok d => (.ok d,
          [.schemaCheck, .envOverlay p, .validateData, .shapeData, .mergeDefaults, .depsCheck])
      | .error m => (.error (.depsErr m),
          [.schemaCheck, .envOverlay p, .validateData, .shapeData, .mergeDefaults, .depsCheck])

/-- `create_response` from core.py: derive the status from the truthiness of
the errors list and build the `Response` for this resource. -/
def Resource.create_response (r : Resource) (data : Option Dict := none)
    (response : Option RawResponse := none) (errors : Option (List String) := none) :
    Response :=
  { status := if errorsTruthy errors then FAILURE_STATUS else SUCCESS_STATUS
    provider := r.name
    data := data
    response := response
    errors := errors }

/-- A `Provider` from core.py: a schema resource together with the
provider-specific send action. Per the spec contract, the send action captures
transport and remote failures inside the `Response` it returns, so it is a
total function into `Response`. -/
structure Provider extends Resource where
  sendNote : Dict → Response

/-- `Provider.notify` from core.py: run the processing pipeline on the keyword
arguments, then invoke `_send_notification` on the processed data. -/
def Provider.notify (p : Provider) (environ : String → Option String)
    (data : Dict) : Except PipelineError Response :=
  (p.toResource.process_data environ data).map p.sendNote

/-- Modelled from the spec: the provider registry `_all_providers` (populated
by the providers package, absent from src/): a mapping from unique provider
names to zero-argument constructors, write-once and then read-only. -/
structure ProviderRegistry where
  entries : List (String × (Unit → Provider))
  nodupNames : (entries.map Prod.fst).Nodup

/-- `get_notifier` from core.py: if the name is registered, call the
registered constructor and return the fresh instance; otherwise the function
falls through and returns `None`. -/
def get_notifier (reg : ProviderRegistry) (name : String) : Option Provider :=
  match reg.entries.lookup name with
  | some ctor => some (ctor ())
  | none => none

/-- `all_providers` from core.py: the list of registered provider names. -/
def all_providers (reg : ProviderRegistry) : List String :=
  reg.entries.map Prod.fst

/-- A heap of per-instance `_merged_schema` cache cells, one cell per
constructed provider instance, used to make Python object identity explicit:
each constructed instance owns the cell at its index. -/
structure InstanceHeap where
  cells : List (Option SDict)
deriving DecidableEq, Repr

/-- Construct a new instance: its class-level `_merged_schema = None` gives it
a fresh cache cell; the new cell index identifies the instance. -/
def InstanceHeap.alloc (h : InstanceHeap) : Nat × InstanceHeap :=
  (h.cells.length, ⟨h.cells ++ [none]⟩)

/-- `get_notifier` with instance allocation made explicit: each call on a
registered name invokes the registered constructor anew, so it allocates a
fresh instance (a fresh cache cell) and returns its index alongside the
constructed provider value. -/
def get_notifier_alloc (reg : ProviderRegistry) (name : String)
    (h : InstanceHeap) : Option (Provider × Nat) × InstanceHeap :=
  match reg.entries.lookup name with
  | some ctor =>
    let a := h.alloc
    (some (ctor (), a.1), a.2)
  | none => (none, h)

/-- Access the `schema` property of the instance owning cell `i`: read that
cell, run the memoized computation, and write the updated cache back to the
same cell only. -/
def InstanceHeap.schemaAccessAt (h : InstanceHeap) (r : Resource) (i : Nat) :
    SDict × InstanceHeap :=
  let res := r.schemaGet (h.cells.getD i none)
  (res.1, ⟨h.cells.set i res.2⟩)

/-- Concrete fixture: the spec's end-to-end `dummy` provider schema, with a
default value added so the precedence law can be exercised. -/
def dummyResource : Resource :=
  { name := "dummy"
    schemaBase := [("properties", .sprops [("message", { type? := some .jstring })])]
    requiredPart := [("required", .sreq ["message"])]
    defaults := [("message", .vstr "default-hi")] }

/-- Concrete fixture: a resource whose declared schema fails the self-check
(no `properties` entry). -/
def brokenResource : Resource :=
  { name := "broken", schemaBase := [], requiredPart := [] }

/-- Concrete fixture: a resource declaring custom override messages for the
`type` rule of `message` and for the top-level `required` rule. -/
def customResource : Resource :=
  { name := "custom"
    schemaBase :=
      [("properties", .sprops
          [("message", { type? := some .jstring, error_type := some "bad message type" })]),
       ("error_required", .sstr "message is missing")]
    requiredPart := [("required", .sreq ["message"])] }

/-- Concrete fixture: an environment holding `NOTIFIERS_DUMMY_MESSAGE`. -/
def testEnviron : String → Option String :=
  fun s => if s = "NOTIFIERS_DUMMY_MESSAGE" then some "env-hi" else none

/-- Concrete fixture: an empty process environment. -/
def noEnviron : String → Option String := fun _ => none

/-- Concrete fixture: an environment holding a value under the custom
environ prefix MY_. -/
def myEnviron : String → Option String :=
  fun s => if s = "MY_DUMMY_MESSAGE" then some "my-env-hi" else none

/-- Concrete fixture: a provider over `dummyResource` whose send action
reports success with the data it was handed. -/
def dummyProvider : Provider :=
  { toResource := dummyResource
    sendNote := fun d => dummyResource.create_response (some d) none none }

/-- Concrete fixture: the registered zero-argument constructor for `dummy`. -/
def dummyCtor : Unit → Provider := fun _ => dummyProvider

/-- Concrete fixture: a registry holding only the `dummy` provider. -/
def dummyRegistry : ProviderRegistry :=
  { entries := [("dummy", dummyCtor)]
    nodupNames := by simp }

theorem lookupAppend {α : Type} (l₁ l₂ : List (String × α)) (k : String) :
    (l₁ ++ l₂).lookup k =
    match l₁.lookup k with
    | some v => some v
    | none => l₂.lookup k := by
  induction l₁ with
  | nil => simp [List.lookup]
  | cons kv t ih =>
    by_cases hk : k = kv.1
    · simp [List.lookup, hk]
    · have hbeq : (k == kv.1) = false := beq_false_of_ne hk
      simp [List.lookup, hbeq, ih]

theorem lookup_merge_dicts (d m : Dict) (k : String) :
    (merge_dicts d m).lookup k =
    match d.lookup k with
    | some v => some v
    | none => m.lookup k := by
  induction m generalizing d with
  | nil => cases h : d.lookup k <;> simp [merge_dicts, h]
  | cons kv t ih =>
    rw [show merge_dicts d (kv :: t)
        = merge_dicts (if (d.lookup kv.1).isSome then d else d ++ [kv]) t from rfl]
    by_cases hd : (d.lookup kv.1).isSome
    · rw [if_pos hd, ih d]
      by_cases hk : k = kv.1
      · subst hk
        obtain ⟨v, hv⟩ := Option.isSome_iff_exists.mp hd
        simp [hv, List.lookup]
      · have hbeq : (k == kv.1) = false := beq_false_of_ne hk
        cases hdk : d.lookup k <;> simp [List.lookup, hbeq]
    · rw [if_neg hd, ih (d ++ [kv]), lookupAppend]
      by_cases hk : k = kv.1
      · subst hk
        have hdn : d.lookup kv.1 = none := Option.not_isSome_iff_eq_none.mp hd
        simp [hdn, List.lookup]
      · have hbeq : (k == kv.1) = false := beq_false_of_ne hk
        cases hdk : d.lookup k <;> simp [hdk, List.lookup, hbeq]

theorem lookup_dictPop_snd (d : Dict) (key k : String) (hk : k ≠ key) :
    ((dictPop d key).2).lookup k = d.lookup k := by
  induction d with
  | nil => rfl
  | cons kv t ih =>
    show ((kv :: t).filter (fun kv => kv.1 != key)).lookup k = _
    by_cases h1 : kv.1 = key
    · have hkv : k ≠ kv.1 := h1 ▸ hk
      have hbeq : (k == kv.1) = false := beq_false_of_ne hkv
      have hfilter : ((kv :: t).filter (fun kv => kv.1 != key))
          = t.filter (fun kv => kv.1 != key) := by
        simp [List.filter_cons, h1]
      rw [hfilter]
      have hcons : (kv :: t).lookup k = t.lookup k := by simp [List.lookup, hbeq]
      rw [hcons]
      exact ih
    · have hfilter : ((kv :: t).filter (fun kv => kv.1 != key))
          = kv :: t.filter (fun kv => kv.1 != key) := by
        simp [List.filter_cons, h1]
      rw [hfilter]
      by_cases hk1 : k = kv.1
      · simp [List.lookup, hk1]
      · have hbeq : (k == kv.1) = false := beq_false_of_ne hk1
        simp only [List.lookup, hbeq]
        exact ih

theorem lookup_dictPop_self (d : Dict) (key : String) :
    ((dictPop d key).2).lookup key = none := by
  induction d with
  | nil => rfl
  | cons kv t ih =>
    show ((kv :: t).filter (fun kv => kv.1 != key)).lookup key = _
    by_cases h1 : kv.1 = key
    · have hfilter : ((kv :: t).filter (fun kv => kv.1 != key))
          = t.filter (fun kv => kv.1 != key) := by
        simp [List.filter_cons, h1]
      rw [hfilter]
      exact ih
    · have hbeq : (key == kv.1) = false := beq_false_of_ne (fun h => h1 h.symm)
      have hfilter : ((kv :: t).filter (fun kv => kv.1 != key))
          = kv :: t.filter (fun kv => kv.1 != key) := by
        simp [List.filter_cons, h1]
      rw [hfilter]
      simp only [List.lookup, hbeq]
      exact ih

theorem lookup_dict_from_environs_not_mem (environ : String → Option String)
    (pfx name : String) (args : List String) (k : String) (hk : k ∉ args) :
    (dict_from_environs environ pfx name args).lookup k = none := by
  induction args with
  | nil => rfl
  | cons a t ih =>
    have hka : k ≠ a := fun h => hk (h ▸ List.mem_cons_self a t)
    have hkt : k ∉ t := fun h => hk (List.mem_cons_of_mem a h)
    have hbeq : (k == a) = false := beq_false_of_ne hka
    simp only [dict_from_environs, List.filterMap_cons]
    cases environ (envKey pfx name a) with
    | none => exact ih hkt
    | some v =>
      show ((a, Val.vstr v) :: List.filterMap _ t).lookup k = none
      simp only [List.lookup, hbeq]
      exact ih hkt

theorem dict_from_environs_noEnviron (pfx name : String) (args : List String) :
    dict_from_environs noEnviron pfx name args = [] := by
  induction args with
  | nil => rfl
  | cons a t ih => simp [dict_from_environs, noEnviron] at ih ⊢

theorem lookup_map_overwrite (d u : SDict) (k : String) :
    ((d.map fun kv =>
      match u.lookup kv.1 with
      | some v => (kv.1, v)
      | none => kv).lookup k)
    = match d.lookup k with
      | some v => some (match u.lookup k with | some w => w | none => v)
      | none => none := by
  induction d with
  | nil => rfl
  | cons kv t ih =>
    by_cases hk : k = kv.1
    · subst hk
      cases hu : u.lookup kv.1 <;> simp [List.lookup, hu]
    · have hbeq : (k == kv.1) = false := beq_false_of_ne hk
      cases hu : u.lookup kv.1 <;> simp [List.lookup, hu, hbeq, ih]

theorem lookup_filter_keys (d u : SDict) (k : String) :
    ((u.filter fun kv => (d.lookup kv.1).isNone).lookup k)
    = if (d.lookup k).isNone then u.lookup k else none := by
  induction u with
  | nil => simp [List.lookup]
  | cons kv t ih =>
    by_cases hk : k = kv.1
    · subst hk
      by_cases hd : (d.lookup kv.1).isNone
      · have hfilter : ((kv :: t).filter fun kv => (d.lookup kv.1).isNone)
            = kv :: (t.filter fun kv => (d.lookup kv.1).isNone) := by
          simp [List.filter_cons, hd]
        rw [hfilter]
        simp [List.lookup, hd]
      · have hfilter : ((kv :: t).filter fun kv => (d.lookup kv.1).isNone)
            = t.filter fun kv => (d.lookup kv.1).isNone := by
          simp [List.filter_cons, hd]
        rw [hfilter, ih]
        simp [hd]
    · have hbeq : (k == kv.1) = false := beq_false_of_ne hk
      by_cases hd : (d.lookup kv.1).isNone
      · have hfilter : ((kv :: t).filter fun kv => (d.lookup kv.1).isNone)
            = kv :: (t.filter fun kv => (d.lookup kv.1).isNone) := by
          simp [List.filter_cons, hd]
        rw [hfilter]
        simp [List.lookup, hbeq, ih]
      · have hfilter : ((kv :: t).filter fun kv => (d.lookup kv.1).isNone)
            = t.filter fun kv => (d.lookup kv.1).isNone := by
          simp [List.filter_cons, hd]
        rw [hfilter, ih]
        simp [List.lookup, hbeq]

theorem lookup_dictUpdate (d u : SDict) (k : String) :
    (dictUpdate d u).lookup k =
    match u.lookup k with
    | some v => some v
    | none => d.lookup k := by
  unfold dictUpdate
  rw [lookupAppend, lookup_map_overwrite, lookup_filter_keys]
  cases hd : d.lookup k <;> cases hu : u.lookup k <;> simp

theorem schemaAccess_eq (r : Resource) (n : Nat) :
    r.schemaAccess n = (r.mergedSchema, some r.mergedSchema) := by
  induction n with
  | zero => rfl
  | succ n ih =>
    show r.schemaGet (r.schemaAccess n).2 = _
    rw [ih]
    show r.schemaGet (some r.mergedSchema) = _
    by_cases h : r.mergedSchema.isEmpty <;> simp [Resource.schemaGet, h]

theorem process_data_ok_lookup (r : Resource) (environ : String → Option String)
    (data d' : Dict) (k : String)
    (hPrep : r.prepare_data = id)
    (hDeps : r.validate_data_dependencies = Except.ok)
    (hok : r.process_data environ data = .ok d')
    (hk : k ≠ "env_prefix") :
    d'.lookup k =
    match data.lookup k with
    | some v => some v
    | none =>
      match (r.get_environs environ ((dictPop data "env_prefix").1.bind Val.asPrefix)).lookup k with
      | some w => some w
      | none => r.defaults.lookup k := by
  unfold Resource.process_data at hok
  split at hok
  · exact absurd hok (by simp)
  · rw [hDeps] at hok
    dsimp only at hok
    split at hok
    · exact absurd hok (by simp)
    · simp only [Except.ok.injEq] at hok
      subst hok
      unfold Resource.merge_defaults
      rw [hPrep]
      simp only [id_eq]
      rw [lookup_merge_dicts]
      by_cases henv :
          (r.get_environs environ ((dictPop data "env_prefix").1.bind Val.asPrefix)).isEmpty
      · have hempty :
            (r.get_environs environ ((dictPop data "env_prefix").1.bind Val.asPrefix)) = [] :=
          List.isEmpty_iff.mp henv
        rw [if_pos henv, lookup_dictPop_snd data "env_prefix" k hk, hempty]
        cases hdl : data.lookup k <;> simp [List.lookup]
      · rw [if_neg henv, lookup_merge_dicts, lookup_dictPop_snd data "env_prefix" k hk]
        cases hdl : data.lookup k <;> simp

theorem dict_from_environs_empty (environ : String → Option String)
    (henv : ∀ s, environ s = none) (pfx name : String) (args : List String) :
    dict_from_environs environ pfx name args = [] := by
  induction args with
  | nil => rfl
  | cons a t ih => simp [dict_from_environs, henv] at ih ⊢

theorem overlay_nil (d : Dict) :
    (if ([] : Dict).isEmpty = true then d else merge_dicts d []) = d := by
  simp

theorem dictPop_cons_ne (a : String) (v : Val) (d : Dict) (key : String)
    (ha : a ≠ key) :
    dictPop ((a, v) :: d) key = ((dictPop d key).1, (a, v) :: (dictPop d key).2) := by
  have hb : (a != key) = true := bne_iff_ne.mpr ha
  have hbeq : (key == a) = false := beq_false_of_ne (fun h => ha h.symm)
  simp [dictPop, List.filter_cons, hb, List.lookup, hbeq]

theorem validate_data_isSome_of_missing_required (r : Resource) (d : Dict)
    (a : String) (hreq : a ∈ schemaRequired r.mergedSchema)
    (hnone : d.lookup a = none) :
    ∃ e, r.validate_data d = some e := by
  have hmem : Violation.vrequired a ∈ iterErrors r.mergedSchema d := by
    unfold iterErrors
    refine List.mem_append_left _ ?_
    exact List.mem_filterMap.mpr ⟨a, hreq, by simp [hnone]⟩
  cases hl : iterErrors r.mergedSchema d with
  | nil =>
    rw [hl] at hmem
    exact absurd hmem (List.not_mem_nil _)
  | cons v t =>
    refine ⟨⟨badArgumentsMsg r.mergedSchema v, r.name, d⟩, ?_⟩
    unfold Resource.validate_data best_match
    rw [hl]
    rfl

theorem validate_data_none_of_valid (r : Resource) (d : Dict)
    (h1 : ∀ b ∈ schemaRequired r.mergedSchema, (d.lookup b).isSome = true)
    (h2 : ∀ pr ∈ schemaProperties r.mergedSchema,
        (match d.lookup pr.1, pr.2.type? with
         | some w, some t => typeOk t w
         | _, _ => true) = true) :
    r.validate_data d = none := by
  have hnil : iterErrors r.mergedSchema d = [] := by
    unfold iterErrors
    rw [List.append_eq_nil]
    constructor
    · rw [List.filterMap_eq_nil_iff]
      intro b hb
      simp [h1 b hb]
    · rw [List.filterMap_eq_nil_iff]
      intro pr hpr
      have hok := h2 pr hpr
      cases hl : d.lookup pr.1 with
      | none => cases ht : pr.2.type? <;> simp [hl, ht]
      | some w =>
        cases ht : pr.2.type? with
        | none => simp [hl, ht]
        | some t =>
          rw [hl, ht] at hok
          dsimp only at hok
          simp [hl, ht, hok]
  unfold Resource.validate_data best_match
  rw [hnil]
  rfl

theorem lookup_eq_some_of_mem_nodup {α : Type} (l : List (String × α))
    (k : String) (v : α) (hnd : (l.map Prod.fst).Nodup) (hmem : (k, v) ∈ l) :
    l.lookup k = some v := by
  induction l with
  | nil => exact absurd hmem (List.not_mem_nil _)
  | cons kv t ih =>
    rcases List.mem_cons.mp hmem with heq | htail
    · rw [← heq]
      simp [List.lookup]
    · have hk : k ≠ kv.1 := by
        intro hkk
        have hin : kv.1 ∈ t.map Prod.fst := hkk ▸ List.mem_map.mpr ⟨(k, v), htail, hkk ▸ rfl⟩
        exact (List.nodup_cons.mp (by simpa using hnd)).1 hin
      have hbeq : (k == kv.1) = false := beq_false_of_ne hk
      simp only [List.lookup, hbeq]
      exact ih (List.nodup_cons.mp (by simpa using hnd)).2 htail

theorem lookup_eq_none_of_not_mem {α : Type} (l : List (String × α))
    (k : String) (h : k ∉ l.map Prod.fst) :
    l.lookup k = none := by
  induction l with
  | nil => rfl
  | cons kv t ih =>
    have hk : k ≠ kv.1 := fun hkk => h (by simp [hkk])
    have hbeq : (k == kv.1) = false := beq_false_of_ne hk
    simp only [List.lookup, hbeq]
    exact ih (fun hin => h (by simp [hin]))

/-- C1: precedence law for argument values in `_process_data` (with the
base-class identity shaping and dependency hooks): an explicitly supplied
caller value always appears in the processed data; when the caller did not
supply the argument, an environment-derived value appears; a declared default
is used only when the argument is absent after the environment overlay and
shaping. -/
theorem claim_C1 (r : Resource) (environ : String → Option String)
    (data d' : Dict) (k : String)
    (hPrep : r.prepare_data = id)
    (hDeps : r.validate_data_dependencies = Except.ok)
    (hk : k ≠ "env_prefix")
    (hok : r.process_data environ data = .ok d') :
    (∀ v, data.lookup k = some v → d'.lookup k = some v)
    ∧ (∀ w, data.lookup k = none →
        (r.get_environs environ ((dictPop data "env_prefix").1.bind Val.asPrefix)).lookup k
          = some w →
        d'.lookup k = some w)
    ∧ (data.lookup k = none →
        (r.get_environs environ ((dictPop data "env_prefix").1.bind Val.asPrefix)).lookup k
          = none →
        d'.lookup k = r.defaults.lookup k) := by
  have h := process_data_ok_lookup r environ data d' k hPrep hDeps hok hk
  refine ⟨?_, ?_, ?_⟩
  · intro v hv
    rw [h, hv]
  · intro w hn he
    rw [h, hn, he]
  · intro hn he
    rw [h, hn, he]

/-- Witness for C1: on the dummy resource with the explicit value, an
environment value and a default all present, the explicit value wins; with
only the environment value and the default present, the environment value
wins. -/
theorem claim_C1_witness :
    (dummyResource.process_data testEnviron [("message", Val.vstr "hi")]
        = .ok [("message", Val.vstr "hi")]
      ∧ ([("message", Val.vstr "hi")] : Dict).lookup "message" = some (Val.vstr "hi"))
    ∧ (dummyResource.process_data testEnviron []
        = .ok [("message", Val.vstr "env-hi")]
      ∧ ([("message", Val.vstr "env-hi")] : Dict).lookup "message"
          = some (Val.vstr "env-hi")) := by
  have h1 := (claim_C1 dummyResource testEnviron [("message", Val.vstr "hi")]
    [("message", Val.vstr "hi")] "message" rfl rfl (by decide) rfl).1
    (Val.vstr "hi") rfl
  have h2 := (claim_C1 dummyResource testEnviron []
    [("message", Val.vstr "env-hi")] "message" rfl rfl (by decide) rfl).2.1
    (Val.vstr "env-hi") rfl rfl
  exact ⟨⟨rfl, h1⟩, ⟨rfl, h2⟩⟩

/-- C3: `create_response` derives the status from the errors list — Success
when empty or absent, Failure when non-empty — and copies the remaining
fields; `raise_on_errors` raises a `NotificationError` carrying the provider
name, data, errors and raw response exactly when the errors list is
non-empty, and modifies no field of the response. -/
theorem claim_C3 (r : Resource) (data : Option Dict) (resp : Option RawResponse)
    (errors : Option (List String)) (rs : Response) :
    ((errors = none ∨ errors = some [] →
        (r.create_response data resp errors).status = SUCCESS_STATUS)
     ∧ (∀ l, errors = some l → l ≠ [] →
        (r.create_response data resp errors).status = FAILURE_STATUS)
     ∧ (r.create_response data resp errors).provider = r.name
     ∧ (r.create_response data resp errors).data = data
     ∧ (r.create_response data resp errors).response = resp
     ∧ (r.create_response data resp errors).errors = errors)
    ∧ ((rs.raise_on_errors.isSome = true ↔ ∃ l, rs.errors = some l ∧ l ≠ [])
     ∧ (∀ e, rs.raise_on_errors = some e →
        e.provider = rs.provider ∧ e.data = rs.data ∧ e.errors = rs.errors
          ∧ e.response = rs.response)
     ∧ rs.raise_on_errors_st.2 = rs) := by
  refine ⟨⟨?_, ?_, rfl, rfl, rfl, rfl⟩, ⟨?_, ?_, rfl⟩⟩
  · rintro (h | h) <;> simp [Resource.create_response, h, errorsTruthy]
  · intro l h hl
    simp [Resource.create_response, h, errorsTruthy, hl]
  · constructor
    · intro h
      cases he : rs.errors with
      | none => simp [Response.raise_on_errors, errorsTruthy, he] at h
      | some l =>
        refine ⟨l, rfl, ?_⟩
        intro hl
        subst hl
        simp [Response.raise_on_errors, errorsTruthy, he] at h
    · rintro ⟨l, he, hl⟩
      simp [Response.raise_on_errors, errorsTruthy, he, hl]
  · intro e he
    unfold Response.raise_on_errors at he
    split at he
    · simp only [Option.some.injEq] at he
      subst he
      exact ⟨rfl, rfl, rfl, rfl⟩
    · exact absurd he (by simp)

/-- Witness for C3: an empty errors list yields a Success response, a
non-empty one yields a Failure response and makes `raise_on_errors` raise,
carrying the fields of the response. -/
theorem claim_C3_witness :
    (dummyResource.create_response none none (some [])).status = SUCCESS_STATUS
    ∧ (dummyResource.create_response none none (some ["x"])).status = FAILURE_STATUS
    ∧ ((Response.mk FAILURE_STATUS "dummy" none none (some ["x"])).raise_on_errors.isSome
        = true) := by
  have h1 := (claim_C3 dummyResource none none (some [])
    (Response.mk FAILURE_STATUS "dummy" none none (some ["x"]))).1.1 (Or.inr rfl)
  have h2 := (claim_C3 dummyResource none none (some ["x"])
    (Response.mk FAILURE_STATUS "dummy" none none (some ["x"]))).1.2.1 ["x"] rfl (by decide)
  have h3 := (claim_C3 dummyResource none none (some ["x"])
    (Response.mk FAILURE_STATUS "dummy" none none (some ["x"]))).2.1.mpr
    ⟨["x"], rfl, by decide⟩
  exact ⟨h1, h2, h3⟩

/-- C8: the merged schema equals the schema fragment with the required part
merged in (required entries overriding on collision); the first access of the
`schema` property computes it and caches it on the instance, every repeated
access yields the same merged schema, and a non-empty cached value is
returned as-is. -/
theorem claim_C8 (r : Resource) :
    (∀ k, r.mergedSchema.lookup k =
      match r.requiredPart.lookup k with
      | some v => some v
      | none => r.schemaBase.lookup k)
    ∧ r.schemaGet none = (r.mergedSchema, some r.mergedSchema)
    ∧ (∀ n, r.schemaAccess n = (r.mergedSchema, some r.mergedSchema))
    ∧ (∀ s, s.isEmpty = false → r.schemaGet (some s) = (s, some s)) := by
  refine ⟨fun k => lookup_dictUpdate _ _ k, rfl, schemaAccess_eq r, ?_⟩
  intro s hs
  simp [Resource.schemaGet, hs]

/-- C2: the traced pipeline computes exactly `_process_data`; a successful
call performs the six stages — schema self-check, environment overlay,
structural validation, provider shaping, default merge, dependency check — in
this strict order; and when the schema self-check fails, a `SchemaError` is
raised with no further stage executed and with a result independent of the
caller data (no caller data is read or modified). -/
theorem claim_C2 (r : Resource) (environ : String → Option String) (data : Dict) :
    (r.process_data_traced environ data).1 = r.process_data environ data
    ∧ (∀ d', r.process_data environ data = .ok d' →
        (r.process_data_traced environ data).2 =
          [.schemaCheck,
           .envOverlay (effPrefix ((dictPop data "env_prefix").1.bind Val.asPrefix)),
           .validateData, .shapeData, .mergeDefaults, .depsCheck])
    ∧ (∀ e, r.validate_schema = some e →
        (∀ data2 : Dict, r.process_data environ data2 = .error (.schemaErr e))
        ∧ (r.process_data_traced environ data).2 = [.schemaCheck]) := by
  refine ⟨?_, ?_, ?_⟩
  · unfold Resource.process_data Resource.process_data_traced
    dsimp only
    split
    · rfl
    · split
      · rfl
      · split <;> rfl
  · intro d' hok
    unfold Resource.process_data at hok
    unfold Resource.process_data_traced
    cases hvs : r.validate_schema with
    | some e =>
      rw [hvs] at hok
      exact absurd hok (by simp)
    | none =>
      rw [hvs] at hok
      dsimp only at hok ⊢
      split at hok
      · exact absurd hok (by simp)
      · split <;> rfl
  · intro e hvs
    constructor
    · intro data2
      unfold Resource.process_data
      rw [hvs]
    · unfold Resource.process_data_traced
      rw [hvs]

/-- Witness for C2: on the dummy resource a successful call executes the six
stages in order with the default environ prefix, and on a resource whose
declared schema is defective the pipeline stops at the schema check with a
`SchemaError`, whatever the caller data. -/
theorem claim_C2_witness :
    (dummyResource.process_data_traced testEnviron [("message", Val.vstr "hi")]).2
      = [.schemaCheck, .envOverlay "NOTIFIERS_", .validateData, .shapeData,
         .mergeDefaults, .depsCheck]
    ∧ brokenResource.process_data noEnviron [("message", Val.vstr "hi")]
      = .error (.schemaErr ⟨"properties is a required schema keyword", "broken", []⟩)
    ∧ (brokenResource.process_data_traced noEnviron []).2 = [.schemaCheck] := by
  have h1 := (claim_C2 dummyResource testEnviron [("message", Val.vstr "hi")]).2.1
    [("message", Val.vstr "hi")] rfl
  have h2 := (claim_C2 brokenResource noEnviron []).2.2
    ⟨"properties is a required schema keyword", "broken", []⟩ rfl
  exact ⟨h1, h2.1 [("message", Val.vstr "hi")], h2.2⟩

/-- C4: `notify` propagates exactly the pipeline exceptions — all raised
strictly before the send action, whose choice cannot affect a failing call —
returns exactly the `Response` produced by `_send_notification` on the
processed data when the pipeline succeeds, and any error it raises is one of
the local contract violations `SchemaError`, `BadArguments` or the
dependency-check exception. -/
theorem claim_C4 (p : Provider) (environ : String → Option String) (data : Dict) :
    (∀ e, p.toResource.process_data environ data = .error e →
        p.notify environ data = .error e
        ∧ ∀ s₁ s₂ : Dict → Response,
            Provider.notify ⟨p.toResource, s₁⟩ environ data
              = Provider.notify ⟨p.toResource, s₂⟩ environ data)
    ∧ (∀ pd, p.toResource.process_data environ data = .ok pd →
        p.notify environ data = .ok (p.sendNote pd))
    ∧ (∀ e, p.notify environ data = .error e →
        (∃ se, e = .schemaErr se) ∨ (∃ be, e = .badArgs be) ∨ (∃ m, e = .depsErr m)) := by
  refine ⟨?_, ?_, ?_⟩
  · intro e he
    constructor
    · unfold Provider.notify
      rw [he]
      rfl
    · intro s₁ s₂
      show (p.toResource.process_data environ data).map s₁
        = (p.toResource.process_data environ data).map s₂
      rw [he]
      rfl
  · intro pd hpd
    unfold Provider.notify
    rw [hpd]
    rfl
  · intro e he
    cases e with
    | schemaErr se => exact Or.inl ⟨se, rfl⟩
    | badArgs be => exact Or.inr (Or.inl ⟨be, rfl⟩)
    | depsErr m => exact Or.inr (Or.inr ⟨m, rfl⟩)

/-- Witness for C4: a successful dummy notification returns exactly the send
action's response on the processed data, and a call missing the required
argument raises `BadArguments` without reaching the send action. -/
theorem claim_C4_witness :
    dummyProvider.notify testEnviron [("message", Val.vstr "hi")]
      = .ok (dummyProvider.sendNote [("message", Val.vstr "hi")])
    ∧ dummyProvider.notify noEnviron []
      = .error (.badArgs ⟨"message is a required property", "dummy", []⟩) := by
  have h1 := (claim_C4 dummyProvider testEnviron [("message", Val.vstr "hi")]).2.1
    [("message", Val.vstr "hi")] rfl
  have h2 := ((claim_C4 dummyProvider noEnviron []).1
    (.badArgs ⟨"message is a required property", "dummy", []⟩) rfl).1
  exact ⟨h1, h2⟩

/-- Witness for C8: the dummy resource's merged schema holds both the
properties fragment and the overriding required entry, and a second access
returns the cached merged schema unchanged. -/
theorem claim_C8_witness :
    dummyResource.mergedSchema.lookup "required" = some (.sreq ["message"])
    ∧ dummyResource.schemaGet (some dummyResource.mergedSchema)
        = (dummyResource.mergedSchema, some dummyResource.mergedSchema) := by
  have h := claim_C8 dummyResource
  constructor
  · rw [h.1 "required"]
    rfl
  · exact h.2.2.2 dummyResource.mergedSchema (by decide)

/-- C5: with no environment variables set, a call whose data (after removing
the reserved `env_prefix` key) omits a required argument makes the pipeline
raise `BadArguments`; supplying that argument, with all other data unchanged
and otherwise valid, makes structural validation pass and rules out
`BadArguments` for the whole call. -/
theorem claim_C5 (r : Resource) (environ : String → Option String)
    (data : Dict) (a : String) (v : Val)
    (henv : ∀ s, environ s = none)
    (ha : a ≠ "env_prefix")
    (hreq : a ∈ schemaRequired r.mergedSchema) :
    (((dictPop data "env_prefix").2).lookup a = none → r.validate_schema = none →
        ∃ e, r.process_data environ data = .error (.badArgs e))
    ∧ ((∀ b ∈ schemaRequired r.mergedSchema,
          (((a, v) :: (dictPop data "env_prefix").2).lookup b).isSome = true) →
       (∀ pr ∈ schemaProperties r.mergedSchema,
          (match ((a, v) :: (dictPop data "env_prefix").2).lookup pr.1, pr.2.type? with
           | some w, some t => typeOk t w
           | _, _ => true) = true) →
       r.validate_data ((a, v) :: (dictPop data "env_prefix").2) = none
       ∧ ∀ e, r.process_data environ ((a, v) :: data) ≠ .error (.badArgs e)) := by
  have henvs : ∀ p, r.get_environs environ p = [] := by
    intro p
    unfold Resource.get_environs
    exact dict_from_environs_empty environ henv _ _ _
  constructor
  · intro hnone hvs
    obtain ⟨e, he⟩ := validate_data_isSome_of_missing_required r
      ((dictPop data "env_prefix").2) a hreq hnone
    refine ⟨e, ?_⟩
    unfold Resource.process_data
    rw [hvs]
    dsimp only
    rw [henvs, overlay_nil, he]
  · intro h1 h2
    have hvd := validate_data_none_of_valid r _ h1 h2
    refine ⟨hvd, ?_⟩
    intro e
    unfold Resource.process_data
    cases hvs : r.validate_schema with
    | some se => simp
    | none =>
      dsimp only
      rw [henvs, dictPop_cons_ne a v data "env_prefix" ha]
      dsimp only
      rw [overlay_nil, hvd]
      dsimp only
      split <;> simp

/-- Witness for C5: the dummy resource rejects a call missing its required
`message` argument with `BadArguments` and accepts it once `message` is
supplied. -/
theorem claim_C5_witness :
    (∃ e, dummyResource.process_data noEnviron [] = .error (.badArgs e))
    ∧ dummyResource.validate_data [("message", Val.vstr "hi")] = none := by
  have h := claim_C5 dummyResource noEnviron [] "message" (Val.vstr "hi")
    (fun _ => rfl) (by decide) (by decide)
  exact ⟨h.1 rfl rfl, (h.2 (by decide) (by decide)).1⟩

/-- C6: when structural validation fails, the raised `BadArguments` carries
the provider name, the validated data and the best-matching violation's
message; that message is the custom override declared under the violated
rule's `error_{kind}` key when a non-empty one exists, and the generic
message otherwise. -/
theorem claim_C6 (r : Resource) (data : Dict) :
    (∀ e, r.validate_data data = some e →
        ∃ v, best_match (iterErrors r.mergedSchema data) = some v
          ∧ e.validation_error = badArgumentsMsg r.mergedSchema v
          ∧ e.provider = r.name ∧ e.data = data)
    ∧ (∀ v m, customMsg r.mergedSchema v = some m → m ≠ "" →
        badArgumentsMsg r.mergedSchema v = m)
    ∧ (∀ v, customMsg r.mergedSchema v = none →
        badArgumentsMsg r.mergedSchema v = genericMsg v) := by
  refine ⟨?_, ?_, ?_⟩
  · intro e he
    unfold Resource.validate_data at he
    split at he
    · rename_i v heq
      simp only [Option.some.injEq] at he
      subst he
      exact ⟨v, heq, rfl, rfl, rfl⟩
    · exact absurd he (by simp)
  · intro v m hm hne
    have hemp : m.isEmpty = false := by
      rw [Bool.eq_false_iff]
      intro hh
      exact hne ((String.isEmpty_iff m).mp hh)
    unfold badArgumentsMsg
    rw [hm]
    dsimp only
    simp [hemp]
  · intro v hm
    unfold badArgumentsMsg
    rw [hm]

/-- Witness for C6: on a schema declaring a custom `error_type` message, a
type violation is reported with the custom message instead of the generic
one. -/
theorem claim_C6_witness :
    badArgumentsMsg customResource.mergedSchema
      (.vtype "message" .jstring (.vint 5)) = "bad message type"
    ∧ ∃ v, best_match (iterErrors customResource.mergedSchema [("message", Val.vint 5)])
        = some v
      ∧ (⟨"bad message type", "custom",
          [("message", Val.vint 5)]⟩ : BadArgumentsE).validation_error
        = badArgumentsMsg customResource.mergedSchema v := by
  have h1 := (claim_C6 customResource [("message", Val.vint 5)]).2.1
    (.vtype "message" .jstring (.vint 5)) "bad message type" rfl (by decide)
  have h2 := (claim_C6 customResource [("message", Val.vint 5)]).1
    ⟨"bad message type", "custom", [("message", Val.vint 5)]⟩ rfl
  exact ⟨h1, h2.elim fun v hv => ⟨v, hv.1, hv.2.1⟩⟩

/-- C7: the reserved `env_prefix` key is removed from the raw data before the
environment overlay, serves only to select the environ prefix of the overlay
stage, and never appears in the processed data handed to the provider action
(given that no environment variable, default or shaping hook reintroduces
it). -/
theorem claim_C7 (r : Resource) (environ : String → Option String)
    (data d' : Dict)
    (hPrep : r.prepare_data = id)
    (hDeps : r.validate_data_dependencies = Except.ok)
    (hArg : "env_prefix" ∉ r.arguments.map Prod.fst)
    (hDef : r.defaults.lookup "env_prefix" = none)
    (hok : r.process_data environ data = .ok d') :
    d'.lookup "env_prefix" = none
    ∧ (r.process_data_traced environ data).2 =
        [.schemaCheck,
         .envOverlay (effPrefix ((data.lookup "env_prefix").bind Val.asPrefix)),
         .validateData, .shapeData, .mergeDefaults, .depsCheck] := by
  have henvl : ∀ p,
      (r.get_environs environ p).lookup "env_prefix" = none := by
    intro p
    unfold Resource.get_environs
    exact lookup_dict_from_environs_not_mem _ _ _ _ _ hArg
  constructor
  · unfold Resource.process_data at hok
    split at hok
    · exact absurd hok (by simp)
    · rw [hDeps] at hok
      dsimp only at hok
      split at hok
      · exact absurd hok (by simp)
      · simp only [Except.ok.injEq] at hok
        subst hok
        unfold Resource.merge_defaults
        rw [hPrep]
        simp only [id_eq]
        rw [lookup_merge_dicts]
        by_cases hc :
            (r.get_environs environ ((dictPop data "env_prefix").1.bind Val.asPrefix)).isEmpty
        · rw [if_pos hc, lookup_dictPop_self]
          simp [hDef]
        · rw [if_neg hc, lookup_merge_dicts, lookup_dictPop_self, henvl]
          simp [hDef]
  · unfold Resource.process_data at hok
    unfold Resource.process_data_traced
    cases hvs : r.validate_schema with
    | some e =>
      rw [hvs] at hok
      exact absurd hok (by simp)
    | none =>
      rw [hvs] at hok
      dsimp only at hok ⊢
      split at hok
      · exact absurd hok (by simp)
      · split <;> rfl

/-- Witness for C7: a dummy call carrying `env_prefix = "MY_"` uses the MY_
prefix for its environment overlay and hands the provider processed data
without the `env_prefix` key. -/
theorem claim_C7_witness :
    (dummyResource.process_data myEnviron
        [("env_prefix", Val.vstr "MY_"), ("message", Val.vstr "hi")]
      = .ok [("message", Val.vstr "hi")]
      ∧ ([("message", Val.vstr "hi")] : Dict).lookup "env_prefix" = none)
    ∧ (dummyResource.process_data_traced myEnviron
        [("env_prefix", Val.vstr "MY_"), ("message", Val.vstr "hi")]).2
      = [.schemaCheck, .envOverlay "MY_", .validateData, .shapeData,
         .mergeDefaults, .depsCheck] := by
  have h := claim_C7 dummyResource myEnviron
    [("env_prefix", Val.vstr "MY_"), ("message", Val.vstr "hi")]
    [("message", Val.vstr "hi")] rfl rfl (by decide) rfl rfl
  exact ⟨⟨rfl, h.1⟩, h.2⟩

/-- C9: a name registered in the provider registry is retrieved by
`get_notifier` as an instance built by its registered constructor, an
unregistered name yields `None`, `get_notifier` succeeds exactly on the
registered names, and every registered name appears exactly once in
`all_providers`. -/
theorem claim_C9 (reg : ProviderRegistry) (name : String) :
    (∀ ctor, (name, ctor) ∈ reg.entries → get_notifier reg name = some (ctor ()))
    ∧ (name ∉ all_providers reg → get_notifier reg name = none)
    ∧ ((get_notifier reg name).isSome = true ↔ name ∈ all_providers reg)
    ∧ (name ∈ all_providers reg → (all_providers reg).count name = 1) := by
  refine ⟨?_, ?_, ?_, ?_⟩
  · intro ctor hm
    unfold get_notifier
    rw [lookup_eq_some_of_mem_nodup reg.entries name ctor reg.nodupNames hm]
  · intro hn
    unfold get_notifier
    rw [lookup_eq_none_of_not_mem reg.entries name hn]
  · constructor
    · intro hs
      by_contra hn
      have := lookup_eq_none_of_not_mem reg.entries name hn
      unfold get_notifier at hs
      rw [this] at hs
      simp at hs
    · intro hm
      obtain ⟨pair, hpair, hfst⟩ := List.mem_map.mp hm
      have : (name, pair.2) ∈ reg.entries := by
        rw [show (name, pair.2) = pair from by rw [← hfst]]
        exact hpair
      unfold get_notifier
      rw [lookup_eq_some_of_mem_nodup reg.entries name pair.2 reg.nodupNames this]
      rfl
  · intro hm
    exact List.count_eq_one_of_mem reg.nodupNames hm

/-- Witness for C9: the dummy registry resolves `dummy` to a constructed
provider, returns `None` for an unregistered name, and lists `dummy` exactly
once. -/
theorem claim_C9_witness :
    get_notifier dummyRegistry "dummy" = some (dummyCtor ())
    ∧ get_notifier dummyRegistry "nosuch" = none
    ∧ (all_providers dummyRegistry).count "dummy" = 1 := by
  have h := claim_C9 dummyRegistry "dummy"
  have h2 := claim_C9 dummyRegistry "nosuch"
  exact ⟨h.1 dummyCtor (List.mem_singleton.mpr rfl),
    h2.2.1 (by decide), h.2.2.2 (by decide)⟩

/-- C10: each `get_notifier` call on a registered name invokes the registered
constructor anew: two lookups of the same name return two distinct freshly
allocated instances, both starting with an empty `_merged_schema` cache, and
accessing the schema of one instance leaves the other instance's cache cell
untouched. -/
theorem claim_C10 (reg : ProviderRegistry) (name : String)
    (ctor : Unit → Provider) (h : InstanceHeap)
    (hlook : reg.entries.lookup name = some ctor) :
    (get_notifier_alloc reg name h).1 = some (ctor (), h.cells.length)
    ∧ (get_notifier_alloc reg name (get_notifier_alloc reg name h).2).1
        = some (ctor (), h.cells.length + 1)
    ∧ h.cells.length ≠ h.cells.length + 1
    ∧ (get_notifier_alloc reg name (get_notifier_alloc reg name h).2).2.cells.getD
        h.cells.length none = none
    ∧ (get_notifier_alloc reg name (get_notifier_alloc reg name h).2).2.cells.getD
        (h.cells.length + 1) none = none
    ∧ (∀ res : Resource,
        (((get_notifier_alloc reg name (get_notifier_alloc reg name h).2).2.schemaAccessAt
            res h.cells.length).2).cells.getD (h.cells.length + 1) none
          = (get_notifier_alloc reg name (get_notifier_alloc reg name h).2).2.cells.getD
              (h.cells.length + 1) none) := by
  unfold get_notifier_alloc InstanceHeap.alloc
  rw [hlook]
  dsimp only
  have hlen : (h.cells ++ [(none : Option SDict)]).length = h.cells.length + 1 := by
    simp
  refine ⟨rfl, by rw [hlen], by omega, ?_, ?_, ?_⟩
  · rw [List.getD_eq_getElem?_getD,
      List.getElem?_append_left (by simp), List.getElem?_concat_length]
    rfl
  · rw [List.getD_eq_getElem?_getD, show h.cells.length + 1
      = (h.cells ++ [(none : Option SDict)]).length from hlen.symm,
      List.getElem?_concat_length]
    rfl
  · intro res
    unfold InstanceHeap.schemaAccessAt
    dsimp only
    rw [List.getD_eq_getElem?_getD, List.getD_eq_getElem?_getD,
      List.getElem?_set_ne (by omega), List.getD_eq_getElem?_getD]

/-- Witness for C10: two lookups of `dummy` on an empty heap return the
distinct instances 0 and 1, both with fresh caches, and a schema access on
instance 0 leaves the cache cell of instance 1 untouched. -/
theorem claim_C10_witness :
    (get_notifier_alloc dummyRegistry "dummy" ⟨[]⟩).1 = some (dummyCtor (), 0)
    ∧ (get_notifier_alloc dummyRegistry "dummy"
        (get_notifier_alloc dummyRegistry "dummy" ⟨[]⟩).2).1 = some (dummyCtor (), 1)
    ∧ (((get_notifier_alloc dummyRegistry "dummy"
          (get_notifier_alloc dummyRegistry "dummy" ⟨[]⟩).2).2.schemaAccessAt
            dummyResource 0).2).cells.getD 1 none = none := by
  have h := claim_C10 dummyRegistry "dummy" dummyCtor ⟨[]⟩ rfl
  exact ⟨h.1, h.2.1, (h.2.2.2.2.2 dummyResource).trans h.2.2.2.2.1⟩

end Notifiers
